import Mathlib

/-!
# Progressive Pose Generation Workflow Engine — verification development

Shallow embedding of the workflow engine of the progressive sprite designer
(`src/lib/workflow.ts`), its prompt assembler (`js/prompts.js` /
`src/lib/prompts.ts`), its pose-hierarchy helpers (`src/lib/poses.ts`) and the
generation client's `generateMultiple` (`src/api/*Client.ts`).

Modelling conventions:
* JavaScript `Map` is modelled as an insertion-ordered association list
  `List (String × ApprovedSpriteData)`; `Map.set` replaces in place when the
  key is present and appends otherwise, `Map.size` is the list length (keys
  are unique in every state the engine can construct).  JavaScript `Set` is an
  insertion-ordered `List String` with membership-guarded append.
* The engine state is a plain record; the generation client is passed as an
  explicit argument (a record of functions) instead of being stored in the
  state, and `Date.now()` / `getModelId()` become explicit arguments of
  `approveSelected`.  Asynchrony is erased: the client is a pure oracle.
* Functions that can throw a runtime `TypeError` in JavaScript (out-of-range
  index arithmetic on `undefined`) or an explicit `throw` return `Option`,
  with `none` for the thrown case.
* Cursor indices are `Nat`.  The only place JavaScript could produce a
  negative cursor is `goToPreviousPose` stepping into a phase with an empty
  pose list (`poses.length - 1 = -1`); with truncated `Nat` subtraction the
  observable result (`pose = none`) is the same, only the stored index
  differs, and the shipped hierarchies have no empty phase.
-/

/-- One generated image: base64 payload plus mime type (`ImageData` in
`workflow.ts`). -/
structure ImageData where
  data : String
  mimeType : String
deriving DecidableEq

/-- One candidate slot: an image or an error message (`GeneratedOption`). -/
structure GeneratedOption where
  image : Option ImageData
  error : Option String
deriving DecidableEq

/-- The durable record written on approval (`ApprovedSpriteData`). -/
structure ApprovedSpriteData where
  imageData : String
  mimeType : String
  poseName : String
  timestamp : Nat
  prompt : String
  modelId : String
  customInstructions : String
  referenceImageIds : List String
deriving DecidableEq

/-- Sprite pixel size (`SpriteSize` in `poses.ts`). -/
structure SpriteSize where
  w : Nat
  h : Nat
deriving DecidableEq

/-- A pose, as in `poses.ts` (`direction` is nullable there). -/
structure Pose where
  id : String
  name : String
  description : String
  direction : Option String
  animGroup : String
  frameIndex : Nat
  spriteSize : SpriteSize
  required : Bool
deriving DecidableEq

/-- A phase: ordered pose list plus metadata, as in `poses.ts`. -/
structure Phase where
  id : String
  name : String
  description : String
  dependsOn : Option String
  required : Bool
  poses : List Pose
deriving DecidableEq

/-- Character configuration (`CharacterConfig` in `workflow.ts`); the two
optional fields are nullable/omittable in the source. -/
structure CharacterConfig where
  name : String
  description : String
  equipment : Option String
  colorNotes : Option String
deriving DecidableEq

/-! ## JavaScript `Map` / `Set` model -/

/-- Source `Map.get`: value of the first (unique) entry with the given key. -/
def mapGet (m : List (String × ApprovedSpriteData)) (k : String) :
    Option ApprovedSpriteData :=
  (m.find? (fun e => e.1 = k)).map (·.2)

/-- Source `Map.has`. -/
def mapHas (m : List (String × ApprovedSpriteData)) (k : String) : Bool :=
  m.any (fun e => e.1 = k)

/-- Source `Map.set`: replace in place when present, append otherwise (JavaScript
`Map` keeps the original insertion position on overwrite). -/
def mapSet (m : List (String × ApprovedSpriteData)) (k : String)
    (v : ApprovedSpriteData) : List (String × ApprovedSpriteData) :=
  if mapHas m k then m.map (fun e => if e.1 = k then (k, v) else e)
  else m ++ [(k, v)]

/-- Source `Array.from(map.keys())`: keys in insertion order. -/
def mapKeys (m : List (String × ApprovedSpriteData)) : List String :=
  m.map (·.1)

/-- Source `Set.add`: append unless already present. -/
def setAdd (s : List String) (x : String) : List String :=
  if x ∈ s then s else s ++ [x]

/-- JavaScript `arr[i]` for a possibly negative index. -/
def jsIdx (l : List GeneratedOption) (i : Int) : Option GeneratedOption :=
  if i < 0 then none else l[i.toNat]?

/-! ## Engine state -/

/-- The mutable state of `WorkflowEngine` (`workflow.ts`).  The generation
client is not part of the state (see the header comment). -/
structure WorkflowEngine where
  gameTypeId : String
  hierarchy : List Phase
  spriteSize : SpriteSize
  currentPhaseIndex : Nat
  currentPoseIndex : Nat
  approvedSprites : List (String × ApprovedSpriteData)
  skippedPoses : List String
  generatedOptions : List GeneratedOption
  selectedOptionIndex : Int
  lastPrompt : String
  isGenerating : Bool
deriving DecidableEq

/-- The constructor's initial state (the constructor throws when the
hierarchy is empty; callers below only use non-empty hierarchies). -/
def initEngine (hierarchy : List Phase) (gameTypeId : String)
    (spriteSize : SpriteSize) : WorkflowEngine :=
  { gameTypeId := gameTypeId
    hierarchy := hierarchy
    spriteSize := spriteSize
    currentPhaseIndex := 0
    currentPoseIndex := 0
    approvedSprites := []
    skippedPoses := []
    generatedOptions := []
    selectedOptionIndex := -1
    lastPrompt := ""
    isGenerating := false }

/-- Source `getCurrentPhase()`. -/
def getCurrentPhase (st : WorkflowEngine) : Option Phase :=
  st.hierarchy[st.currentPhaseIndex]?

/-- Source `getCurrentPose()`. -/
def getCurrentPose (st : WorkflowEngine) : Option Pose :=
  (getCurrentPhase st).bind (fun ph => ph.poses[st.currentPoseIndex]?)

/-- Source `getTotalPoseCountFromHierarchy` (`poses.ts`): sum of pose-list lengths. -/
def getTotalPoseCountFromHierarchy (hierarchy : List Phase) : Nat :=
  hierarchy.foldl (fun s ph => s + ph.poses.length) 0

/-- Source `getProgress()` as a tuple (completed, total, approved, skipped). -/
def getProgress (st : WorkflowEngine) : Nat × Nat × Nat × Nat :=
  let total := getTotalPoseCountFromHierarchy st.hierarchy
  let approved := st.approvedSprites.length
  let skipped := st.skippedPoses.length
  (approved + skipped, total, approved, skipped)

/-- Source `isComplete()`: the source compares with `completed >= total`. -/
def isComplete (st : WorkflowEngine) : Bool :=
  (getProgress st).1 ≥ (getProgress st).2.1

/-! ## Prompt assembler (`js/prompts.js`, `src/lib/prompts.ts`)

The builder functions are embedded with their lookup tables as explicit
arguments: in `js/prompts.js` the tables are hardcoded records of template
functions / fragment strings, in `src/lib/prompts.ts` the same tables are
loaded from `prompts.json`.  A per-game-type super-prompt template is a
function of the sprite width and height (the `(w, h) =>` template literals of
`js/prompts.js`). -/

/-- Super-prompt table type: game type id to width/height template. -/
def SuperTable : Type := String → Option (Nat → Nat → String)

/-- Pose-fragment table type: pose id to fragment. -/
def PoseTable : Type := String → Option String

/-- Source `buildSuperPrompt`: template lookup (throws on unknown game type). -/
def buildSuperPrompt (superT : SuperTable) (gameTypeId : String)
    (spriteSize : SpriteSize) : Option String :=
  (superT gameTypeId).map (fun tmpl => tmpl spriteSize.w spriteSize.h)

/-- Source `buildCharacterPrompt`: name/description sentence plus optional
equipment and color notes (empty-string optionals are falsy in JavaScript
and are modelled as `none`). -/
def buildCharacterPrompt (cfg : CharacterConfig) : String :=
  "The character is " ++ cfg.name ++ ": " ++ cfg.description ++ "."
    ++ (match cfg.equipment with
        | some e => " " ++ e ++ "."
        | none => "")
    ++ (match cfg.colorNotes with
        | some c => " " ++ c ++ "."
        | none => "")

/-- Source `buildReferenceContext`: empty for count 0, otherwise the fixed
consistency sentence. -/
def buildReferenceContext (approvedCount : Nat) : String :=
  if approvedCount = 0 then ""
  else "I am providing " ++ toString approvedCount ++
    " reference image(s) of this same character in other poses. Maintain EXACT consistency with these references — same character design, same colors, same proportions, same pixel art style, same level of detail. The new sprite must look like it belongs on the same sprite sheet."

/-- Source `buildPosePrompt`: fragment lookup (throws on missing fragment). -/
def buildPosePrompt (poseT : PoseTable) (pose : Pose) : Option String :=
  poseT pose.id

/-- Source `buildFullPrompt`: the layers joined by blank lines, the reference
context only when non-empty. -/
def buildFullPrompt (superT : SuperTable) (poseT : PoseTable)
    (gameTypeId : String) (spriteSize : SpriteSize) (cfg : CharacterConfig)
    (pose : Pose) (approvedCount : Nat) : Option String :=
  match buildSuperPrompt superT gameTypeId spriteSize,
        buildPosePrompt poseT pose with
  | some sup, some frag =>
      let refContext := buildReferenceContext approvedCount
      let parts :=
        [sup, buildCharacterPrompt cfg] ++
        (if refContext = "" then [] else [refContext]) ++ [frag]
      some (String.intercalate "\n\n" parts)
  | _, _ => none

/-! ## Reference selector (`getApprovedImagesForReference`) -/

/-- One `addRef` step of `getApprovedImagesForReference`: the accumulator is
the pushed image list paired with the `added` id set (in push order). -/
def addRef (approved : List (String × ApprovedSpriteData))
    (currentPoseId : Option String) (acc : List ImageData × List String)
    (poseId : String) : List ImageData × List String :=
  if poseId ∈ acc.2 then acc
  else if currentPoseId = some poseId then acc
  else match mapGet approved poseId with
    | none => acc
    | some sprite =>
        (acc.1 ++ [{ data := sprite.imageData, mimeType := sprite.mimeType }],
         acc.2 ++ [poseId])

/-- Source `getApprovedImagesForReference`, returning the pushed images together
with the `added` id set.  `none` models the JavaScript `TypeError` thrown
when `currentPoseIndex` exceeds the current phase's pose count (the loop
would read `.id` of `undefined`); with a valid cursor this cannot happen. -/
def getApprovedRefsCore (st : WorkflowEngine) :
    Option (List ImageData × List String) :=
  let currentPoseId := (getCurrentPose st).map (·.id)
  -- the source guards with `if (anchorId)`: JavaScript truthiness, so an
  -- undefined anchor (no phase or no pose) and an empty-string id are both
  -- skipped
  let anchorStep := fun (acc : List ImageData × List String) =>
    match (st.hierarchy[0]?).bind (fun ph => ph.poses[0]?) with
    | some anchor =>
        if anchor.id = "" then acc
        else addRef st.approvedSprites currentPoseId acc anchor.id
    | none => acc
  let acc0 := anchorStep ([], [])
  match getCurrentPhase st with
  | none => some acc0
  | some phase =>
      if st.currentPoseIndex ≤ phase.poses.length then
        some (((phase.poses.take st.currentPoseIndex).map (·.id)).foldl
          (addRef st.approvedSprites currentPoseId) acc0)
      else none

/-- The image list actually returned to callers. -/
def getApprovedImagesForReference (st : WorkflowEngine) :
    Option (List ImageData) :=
  (getApprovedRefsCore st).map (·.1)

/-! ## Generation -/

/-- The generation client, as the pure oracle the engine consumes
(`SpriteClient` in `workflow.ts`): the `generateMultiple` field maps
(prompt, references, count, aspect) to the per-slot results. -/
structure SpriteClient where
  generateMultiple : String → List ImageData → Nat → String → List GeneratedOption
  modelId : String

/-- Source `computeAspectRatio` of `workflow.ts` (name shortened): reduce by the
gcd and render as a ratio string. -/
def computeAspect (w h : Nat) : String :=
  let d := Nat.gcd w h
  toString (w / d) ++ ":" ++ toString (h / d)

/-- Whitespace for the purposes of JavaScript `String.prototype.trim` (the
common subset; the full JavaScript set also has unicode spaces). -/
def isWs (c : Char) : Bool :=
  c = ' ' ∨ c = '\t' ∨ c = '\n' ∨ c = '\r'

/-- JavaScript `.trim()`: strip leading and trailing whitespace. -/
def jsTrim (s : String) : String :=
  String.mk (((s.data.dropWhile isWs).reverse.dropWhile isWs).reverse)

/-- The prompt actually recorded and sent: `buildFullPrompt` output plus the
optional trimmed custom-instructions suffix. -/
def appendInstructions (base : String) (customInstructions : String) : String :=
  if jsTrim customInstructions = "" then base
  else base ++ "\n\nAdditional instructions: " ++ jsTrim customInstructions

/-- Source `generateCurrentPose(characterConfig, customInstructions)`: builds the
prompt from the current pose and reference list, asks the client for 4
candidates, and replaces the candidate list wholesale.  `none` models a
thrown error (no current pose, reference-selector crash, or prompt-assembly
failure); on the success path `isGenerating` has been reset by `finally`. -/
def generateCurrentPose (superT : SuperTable) (poseT : PoseTable)
    (client : SpriteClient) (st : WorkflowEngine) (cfg : CharacterConfig)
    (customInstructions : String) :
    Option (List GeneratedOption × WorkflowEngine) :=
  match getCurrentPose st with
  | none => none
  | some pose =>
      match getApprovedImagesForReference st with
      | none => none
      | some refs =>
          match buildFullPrompt superT poseT st.gameTypeId st.spriteSize cfg
              pose refs.length with
          | none => none
          | some base =>
              let prompt := appendInstructions base customInstructions
              let aspect := computeAspect st.spriteSize.w st.spriteSize.h
              let results := client.generateMultiple prompt refs 4 aspect
              some (results,
                { st with
                  generatedOptions := results
                  selectedOptionIndex := -1
                  lastPrompt := prompt
                  isGenerating := false })

/-! ## Selection, approval, skip -/

/-- Source `selectOption(index)`: stores the index, returns the slot (or null). -/
def selectOption (st : WorkflowEngine) (index : Int) :
    WorkflowEngine × Option GeneratedOption :=
  ({ st with selectedOptionIndex := index }, jsIdx st.generatedOptions index)

/-- Source `approveSelected()`: `now` stands for `Date.now()`, `modelId` for
`this.client.getModelId()`.  The outer `none` models the `TypeError` of
`pose!.id` when a selected image exists but there is no current pose; the
inner `Option ApprovedSpriteData` is the JavaScript return value. -/
def approveSelected (st : WorkflowEngine) (now : Nat) (modelId : String) :
    Option (Option ApprovedSpriteData × WorkflowEngine) :=
  if st.selectedOptionIndex < 0 then some (none, st)
  else match jsIdx st.generatedOptions st.selectedOptionIndex with
    | none => some (none, st)
    | some option =>
        match option.image with
        | none => some (none, st)
        | some img =>
            match getCurrentPose st with
            | none => none
            | some pose =>
                let data : ApprovedSpriteData :=
                  { imageData := img.data
                    mimeType := img.mimeType
                    poseName := pose.name
                    timestamp := now
                    prompt := st.lastPrompt
                    modelId := modelId
                    customInstructions := ""
                    referenceImageIds := mapKeys st.approvedSprites }
                some (some data,
                  { st with approvedSprites :=
                      mapSet st.approvedSprites pose.id data })

/-- Source `skipCurrentPose()`: adds the current pose id to the skipped set (no-op
when there is no current pose). -/
def skipCurrentPose (st : WorkflowEngine) : WorkflowEngine :=
  match getCurrentPose st with
  | some pose => { st with skippedPoses := setAdd st.skippedPoses pose.id }
  | none => st

/-- Source `removeApproval(poseId)`: delete and return the prior record. -/
def removeApproval (st : WorkflowEngine) (poseId : String) :
    Option ApprovedSpriteData × WorkflowEngine :=
  (mapGet st.approvedSprites poseId,
   { st with approvedSprites :=
       st.approvedSprites.filter (fun e => ¬ e.1 = poseId) })

/-! ## Navigation -/

/-- A pose is "fresh" when it is neither approved nor skipped. -/
def isFresh (approved : List (String × ApprovedSpriteData))
    (skipped : List String) (pose : Pose) : Bool :=
  ¬ mapHas approved pose.id ∧ pose.id ∉ skipped

/-- Result record of the two advance operations. -/
structure AdvanceResult where
  phase : Option Phase
  pose : Option Pose
  done : Bool
deriving DecidableEq

/-- First fresh pose of a pose list, with its index. -/
def findFreshIdx (fresh : Pose → Bool) : List Pose → Option (Nat × Pose)
  | [] => none
  | p :: rest =>
      if fresh p then some (0, p)
      else (findFreshIdx fresh rest).map (fun r => (r.1 + 1, r.2))

/-- The phase-to-phase part of the `advanceToNextPose()` `while` loop: scan
whole phases (numbered from `phIdx`) for a fresh pose.  Entering a phase
with an empty pose list reproduces the source's unguarded `poses[0].id`
read — a `TypeError`, modelled as `none`; `some none` is the "done" exit. -/
def advancePhases (fresh : Pose → Bool) :
    List Phase → Nat → Option (Option (Nat × Nat × Pose))
  | [], _ => some none
  | phase :: rest, phIdx =>
      if phase.poses.isEmpty then none
      else
        match findFreshIdx fresh phase.poses with
        | some (i, p) => some (some (phIdx, i, p))
        | none => advancePhases fresh rest (phIdx + 1)

/-- The `while` loop of `advanceToNextPose()`: from cursor `(ph, pi)`,
pre-increment and scan the rest of the current phase, then the following
phases.  A cursor phase index at or past the end means the `while` guard
fails immediately (done). -/
def advanceLoop (hierarchy : List Phase)
    (approved : List (String × ApprovedSpriteData)) (skipped : List String)
    (ph pi : Nat) : Option (Option (Nat × Nat × Pose)) :=
  match hierarchy[ph]? with
  | none => some none
  | some phase =>
      match findFreshIdx (isFresh approved skipped)
          (phase.poses.drop (pi + 1)) with
      | some (i, p) => some (some (ph, pi + 1 + i, p))
      | none =>
          advancePhases (isFresh approved skipped)
            (hierarchy.drop (ph + 1)) (ph + 1)

/-- Source `advanceToNextPose()`. -/
def advanceToNextPose (st : WorkflowEngine) :
    Option (AdvanceResult × WorkflowEngine) :=
  match advanceLoop st.hierarchy st.approvedSprites st.skippedPoses
      st.currentPhaseIndex st.currentPoseIndex with
  | none => none
  | some none => some ({ phase := none, pose := none, done := true }, st)
  | some (some (ph, pi, pose)) =>
      some ({ phase := st.hierarchy[ph]?, pose := some pose, done := false },
        { st with
          currentPhaseIndex := ph
          currentPoseIndex := pi
          generatedOptions := []
          selectedOptionIndex := -1 })

/-- Result record of `goToPreviousPose()` (its `pose` field is `undefined`
in the source when the target phase is empty). -/
structure PrevResult where
  phase : Phase
  pose : Option Pose
deriving DecidableEq

/-- Shared tail of `goToPreviousPose`: store the new cursor, clear the
candidates and build the result; `none` is the `TypeError` on reading
`.poses` of an `undefined` phase. -/
def prevFinish (st : WorkflowEngine) (ph pi : Nat) :
    Option (PrevResult × WorkflowEngine) :=
  match st.hierarchy[ph]? with
  | none => none
  | some phase =>
      some ({ phase := phase, pose := phase.poses[pi]? },
        { st with
          currentPhaseIndex := ph
          currentPoseIndex := pi
          generatedOptions := []
          selectedOptionIndex := -1 })

/-- Source `goToPreviousPose()`: decrement the cursor, wrapping across phase
boundaries and clamping at the very first pose. -/
def goToPreviousPose (st : WorkflowEngine) :
    Option (PrevResult × WorkflowEngine) :=
  if st.currentPoseIndex = 0 then
    if st.currentPhaseIndex = 0 then prevFinish st 0 0
    else
      match st.hierarchy[st.currentPhaseIndex - 1]? with
      | none => none
      | some prevPhase =>
          prevFinish st (st.currentPhaseIndex - 1) (prevPhase.poses.length - 1)
  else prevFinish st st.currentPhaseIndex (st.currentPoseIndex - 1)

/-- Source `jumpToPose(phaseIndex, poseIndex)`: bounds-checked repositioning;
`none` is the JavaScript `null` return, which leaves the state unchanged. -/
def jumpToPose (st : WorkflowEngine) (phaseIndex poseIndex : Int) :
    Option ((Phase × Pose) × WorkflowEngine) :=
  if phaseIndex < 0 ∨ phaseIndex ≥ (st.hierarchy.length : Int) then none
  else match st.hierarchy[phaseIndex.toNat]? with
    | none => none
    | some phase =>
        if poseIndex < 0 ∨ poseIndex ≥ (phase.poses.length : Int) then none
        else match phase.poses[poseIndex.toNat]? with
          | none => none
          | some pose =>
              some ((phase, pose),
                { st with
                  currentPhaseIndex := phaseIndex.toNat
                  currentPoseIndex := poseIndex.toNat
                  generatedOptions := []
                  selectedOptionIndex := -1 })

/-- The double `for` loop of `advanceToNextUnapprovedPose()`: first fresh
position scanning the whole hierarchy from its start. -/
def scanAllPhases (fresh : Pose → Bool) : List Phase → Option (Nat × Nat × Pose)
  | [] => none
  | phase :: rest =>
      match phase.poses.findIdx? fresh with
      | some pi =>
          match phase.poses[pi]? with
          | some pose => some (0, pi, pose)
          | none => none
      | none =>
          (scanAllPhases fresh rest).map (fun r => (r.1 + 1, r.2.1, r.2.2))

/-- Source `advanceToNextUnapprovedPose()`: full scan from the very beginning. -/
def advanceToNextUnapprovedPose (st : WorkflowEngine) :
    AdvanceResult × WorkflowEngine :=
  match scanAllPhases (isFresh st.approvedSprites st.skippedPoses) st.hierarchy with
  | some (ph, pi, pose) =>
      ({ phase := st.hierarchy[ph]?, pose := some pose, done := false },
        { st with
          currentPhaseIndex := ph
          currentPoseIndex := pi
          generatedOptions := []
          selectedOptionIndex := -1 })
  | none => ({ phase := none, pose := none, done := true }, st)

/-! ## Generation client: `generateMultiple` (`src/api/*Client.ts`) -/

/-- Per-request result of `generateImage` (`GenerateResult`). -/
structure GenerateResult where
  text : Option String
  image : Option ImageData
  error : Option String
deriving DecidableEq

/-- The network outcome of one underlying `generateImage` call: a resolved
result or the message of a thrown error. -/
def settleOutcome (o : Except String GenerateResult) : GenerateResult :=
  match o with
  | Except.ok v => v
  | Except.error m =>
      { text := none, image := none,
        error := some (if m = "" then "Unknown error" else m) }

/-- Source `generateMultiple(prompt, refs, count, aspect)`: `count` promises are
issued in index order and joined with `Promise.allSettled`, so slot `i` holds
request `i`'s settled outcome regardless of completion order; a rejection
becomes an `error` entry in its own slot (`outcome.reason?.message ||
'Unknown error'`) and is never re-thrown.  The outcome oracle abstracts the
network; prompt, references and aspect ratio do not affect slot bookkeeping. -/
def generateMultipleClient (outcomes : Nat → Except String GenerateResult)
    (count : Nat) : List GenerateResult :=
  (List.range count).map (fun i => settleOutcome (outcomes i))

/-! ## Positions in the hierarchy (for stating navigation claims) -/

/-- Strict forward (lexicographic) order on (phaseIndex, poseIndex). -/
def posLt (a b : Nat × Nat) : Prop :=
  a.1 < b.1 ∨ (a.1 = b.1 ∧ a.2 < b.2)

instance (a b : Nat × Nat) : Decidable (posLt a b) := by
  unfold posLt; infer_instance

/-- The pose stored at a (phaseIndex, poseIndex) position. -/
def poseAt (hierarchy : List Phase) (ph pi : Nat) : Option Pose :=
  (hierarchy[ph]?).bind (fun p => p.poses[pi]?)

/-- All pose ids of a hierarchy, in order. -/
def hierarchyPoseIds (hierarchy : List Phase) : List String :=
  hierarchy.flatMap (fun ph => ph.poses.map (·.id))

/-! ## Reference-selector policy, written from the spec (§4.3)

These definitions follow the spec's words, for the refinement comparison
with `getApprovedRefsCore`: the anchor pose's sprite first (if approved and
not the current pose), then the approved sprites of the poses preceding the
current pose within the current phase, in pose order, de-duplicated with the
first occurrence (the anchor) winning. -/

/-- The anchor pose id: first pose of the first phase. -/
def anchorPoseId (hierarchy : List Phase) : Option String :=
  ((hierarchy[0]?).bind (fun ph => ph.poses[0]?)).map (·.id)

/-- Modelled from the spec: the anchor part of the reference list. -/
def specAnchorIds (st : WorkflowEngine) (currentId : String) : List String :=
  match anchorPoseId st.hierarchy with
  | some a =>
      if (mapGet st.approvedSprites a).isSome ∧ ¬ a = currentId then [a] else []
  | none => []

/-- Modelled from the spec: the ordered, de-duplicated pose-id list the
reference selector should produce for the current pose. -/
def specReferenceIds (st : WorkflowEngine) (currentId : String) : List String :=
  let anchorIds := specAnchorIds st currentId
  let phaseIds : List String :=
    match getCurrentPhase st with
    | some phase => (phase.poses.take st.currentPoseIndex).map (·.id)
    | none => []
  anchorIds ++ phaseIds.filter (fun pid =>
    (mapGet st.approvedSprites pid).isSome ∧ ¬ pid = currentId ∧
      pid ∉ anchorIds)

/-- The images belonging to a list of approved pose ids. -/
def imagesOf (approved : List (String × ApprovedSpriteData))
    (ids : List String) : List ImageData :=
  ids.filterMap (fun pid => (mapGet approved pid).map
    (fun s => { data := s.imageData, mimeType := s.mimeType }))

/-! ## Concrete fixtures for witnesses and counterexamples -/

/-- A sample pose with the given id. -/
def mkPose (pid : String) : Pose :=
  { id := pid, name := "Pose " ++ pid, description := "", direction := none,
    animGroup := "grp", frameIndex := 0, spriteSize := { w := 16, h := 24 },
    required := true }

/-- A sample phase holding poses with the given ids. -/
def mkPhase (phid : String) (pids : List String) : Phase :=
  { id := phid, name := phid, description := "", dependsOn := none,
    required := true, poses := pids.map mkPose }

/-- A sample approved-sprite record for a pose id. -/
def mkSprite (pid : String) : ApprovedSpriteData :=
  { imageData := "img-" ++ pid, mimeType := "image/png",
    poseName := "Pose " ++ pid, timestamp := 0, prompt := "", modelId := "m",
    customInstructions := "", referenceImageIds := [] }

/-- A candidate slot holding a successful image. -/
def mkImageOption (s : String) : GeneratedOption :=
  { image := some { data := s, mimeType := "image/png" }, error := none }

/-- A stub client returning `count` copies of one successful image, so the
number of returned slots reveals the count the engine requested. -/
def echoClient : SpriteClient :=
  { generateMultiple := fun _ _ count _ =>
      List.replicate count (mkImageOption "gen")
    modelId := "model-x" }

/-- A sample super-prompt table with one game type registered. -/
def sampleSuperTable : SuperTable :=
  fun g => if g = "G" then
    some (fun w h => "SPRITE " ++ toString w ++ "x" ++ toString h) else none

/-- A sample pose-fragment table covering the sample pose ids. -/
def samplePoseTable : PoseTable :=
  fun pid => if pid = "A" ∨ pid = "B" ∨ pid = "C" then
    some ("FRAG-" ++ pid) else none

/-- A sample character configuration. -/
def cxCfg : CharacterConfig :=
  { name := "Hero", description := "a hero", equipment := none,
    colorNotes := none }

/-- A one-pose hierarchy engine, freshly constructed. -/
def cxE0 : WorkflowEngine :=
  initEngine [mkPhase "p1" ["A"]] "G" { w := 16, h := 24 }

/-- The engine after `generateCurrentPose` (4 candidates from the stub
client). -/
def cxE1 : WorkflowEngine :=
  match generateCurrentPose sampleSuperTable samplePoseTable echoClient cxE0
      cxCfg "" with
  | some (_, s) => s
  | none => cxE0

/-- After `selectOption(0)`. -/
def cxE2 : WorkflowEngine := (selectOption cxE1 0).1

/-- After `approveSelected()` (pose A becomes approved). -/
def cxE3 : WorkflowEngine :=
  match approveSelected cxE2 77 "model-x" with
  | some (_, s) => s
  | none => cxE2

/-- After `skipCurrentPose()` on the already-approved pose A. -/
def cxE4 : WorkflowEngine := skipCurrentPose cxE3

/-! ## Derived states, results and helper predicates used by the theorems -/

/-- The approval record produced on the concrete trace. -/
def cxRec : ApprovedSpriteData :=
  { imageData := "gen", mimeType := "image/png", poseName := "Pose A",
    timestamp := 77,
    prompt := "SPRITE 16x24\n\nThe character is Hero: a hero.\n\nFRAG-A",
    modelId := "model-x", customInstructions := "", referenceImageIds := [] }

/-- The two-phase sample hierarchy: phase p1 holds A and B, phase p2 holds
C. -/
def hierTwoPhase : List Phase := [mkPhase "p1" ["A", "B"], mkPhase "p2" ["C"]]

/-- Run `generateCurrentPose` with the sample tables and stub client,
keeping the state on failure. -/
def stepGen (st : WorkflowEngine) : WorkflowEngine :=
  match generateCurrentPose sampleSuperTable samplePoseTable echoClient st
      cxCfg "" with
  | some (_, s) => s
  | none => st

/-- Run `approveSelected`, keeping the state on failure. -/
def stepApprove (st : WorkflowEngine) (now : Nat) : WorkflowEngine :=
  match approveSelected st now "model-x" with
  | some (_, s) => s
  | none => st

/-- Run `advanceToNextPose`, keeping the state on failure. -/
def stepAdvance (st : WorkflowEngine) : WorkflowEngine :=
  match advanceToNextPose st with
  | some (_, s) => s
  | none => st

/-- Trace: generate/select/approve A, advance to B, generate/select/approve
B, advance to C, generate and select for C (not yet approved). -/
def c7State : WorkflowEngine :=
  let s1 := stepApprove (selectOption (stepGen
    (initEngine hierTwoPhase "G" { w := 16, h := 24 })) 0).1 1
  let s2 := stepAdvance s1
  let s3 := stepApprove (selectOption (stepGen s2) 0).1 2
  let s4 := stepAdvance s3
  (selectOption (stepGen s4) 0).1

/-- Everything a navigation operation must leave unchanged: all state
fields except the cursor, the candidate list and the selection. -/
def navFrame (st st' : WorkflowEngine) : Prop :=
  st'.approvedSprites = st.approvedSprites ∧
  st'.skippedPoses = st.skippedPoses ∧
  st'.hierarchy = st.hierarchy ∧
  st'.gameTypeId = st.gameTypeId ∧
  st'.spriteSize = st.spriteSize ∧
  st'.lastPrompt = st.lastPrompt ∧
  st'.isGenerating = st.isGenerating

/-- The state after `advanceToNextPose` on the fresh two-phase engine. -/
def navAfterAdvance : WorkflowEngine :=
  stepAdvance (initEngine hierTwoPhase "G" { w := 16, h := 24 })

/-- The advance result on the fresh two-phase engine. -/
def navAdvanceResult : AdvanceResult :=
  match advanceToNextPose (initEngine hierTwoPhase "G" { w := 16, h := 24 }) with
  | some (r, _) => r
  | none => { phase := none, pose := none, done := true }

/-- The engine used to exercise C2: pose B already approved, cursor at A,
so the next fresh pose is C in the second phase. -/
def c2Engine : WorkflowEngine :=
  { initEngine hierTwoPhase "G" { w := 16, h := 24 } with
    approvedSprites := [("B", mkSprite "B")] }

/-- The advance result on `c2Engine`. -/
def c2Result : AdvanceResult :=
  match advanceToNextPose c2Engine with
  | some (r, _) => r
  | none => { phase := none, pose := none, done := true }

/-- The state after advancing `c2Engine`. -/
def c2After : WorkflowEngine := stepAdvance c2Engine

/-- The keep-predicate the `addRef` guards implement for a pose id, given
the `added` ids accumulated so far. -/
def refKeep (app : List (String × ApprovedSpriteData)) (cur : Option String)
    (seen : List String) (pid : String) : Bool :=
  pid ∉ seen ∧ ¬ cur = some pid ∧ (mapGet app pid).isSome

/-- The id list kept by a run of `addRef` steps, threading the `added`
set. -/
def refFilterIds (app : List (String × ApprovedSpriteData))
    (cur : Option String) : List String → List String → List String
  | [], _ => []
  | pid :: rest, seen =>
      if pid ∈ seen then refFilterIds app cur rest seen
      else if cur = some pid then refFilterIds app cur rest seen
      else match mapGet app pid with
        | none => refFilterIds app cur rest seen
        | some _ => pid :: refFilterIds app cur rest (seen ++ [pid])

/-- The sample engine used to exercise C3: poses A and B approved, cursor
on pose C in the second phase. -/
def c3Engine : WorkflowEngine :=
  { initEngine hierTwoPhase "G" { w := 16, h := 24 } with
    approvedSprites := [("A", mkSprite "A"), ("B", mkSprite "B")]
    currentPhaseIndex := 1 }

/-- Whether request `i` fails (its promise rejects). -/
def outcomeFails (outcomes : Nat → Except String GenerateResult)
    (i : Nat) : Bool :=
  match outcomes i with
  | Except.error _ => true
  | Except.ok _ => false

/-- A fulfilled generation result carrying an image. -/
def okResult : GenerateResult :=
  { text := none, image := some { data := "img", mimeType := "image/png" },
    error := none }

/-- The concrete outcome table: requests 1 and 3 of 4 fail. -/
def cxOutcomes : Nat → Except String GenerateResult :=
  fun i => if i % 2 = 0 then Except.ok okResult
    else Except.error "network failure"

/-! ## Shape lemmas for `approveSelected` -/

/-- Any non-throwing `approveSelected` call changes at most the approved
map: every other field of the state is returned untouched. -/
theorem approveSelected_shape (st : WorkflowEngine) (now : Nat)
    (modelId : String) (res : Option ApprovedSpriteData)
    (st' : WorkflowEngine)
    (h : approveSelected st now modelId = some (res, st')) :
    ∃ app', st' = { st with approvedSprites := app' } := by
  unfold approveSelected at h
  split at h
  · obtain ⟨h1, h2⟩ := Option.some.injEq _ _ ▸ Prod.mk.injEq _ _ _ _ ▸
      (Option.some.inj h)
    exact ⟨st.approvedSprites, by cases h2; rfl⟩
  · split at h
    · obtain h2 := (Prod.mk.injEq _ _ _ _ ▸ (Option.some.inj h)).2
      exact ⟨st.approvedSprites, by cases h2; rfl⟩
    · split at h
      · obtain h2 := (Prod.mk.injEq _ _ _ _ ▸ (Option.some.inj h)).2
        exact ⟨st.approvedSprites, by cases h2; rfl⟩
      · split at h
        · exact absurd h (by simp)
        · obtain h2 := (Prod.mk.injEq _ _ _ _ ▸ (Option.some.inj h)).2
          exact ⟨_, h2.symm⟩

/-- Successful approval in full: the record's fields and the new state. -/
theorem approveSelected_success (st : WorkflowEngine) (now : Nat)
    (modelId : String) (rec : ApprovedSpriteData) (st' : WorkflowEngine)
    (h : approveSelected st now modelId = some (some rec, st')) :
    ∃ pose option img,
      getCurrentPose st = some pose ∧
      ¬ st.selectedOptionIndex < 0 ∧
      jsIdx st.generatedOptions st.selectedOptionIndex = some option ∧
      option.image = some img ∧
      rec = { imageData := img.data, mimeType := img.mimeType,
              poseName := pose.name, timestamp := now,
              prompt := st.lastPrompt, modelId := modelId,
              customInstructions := "",
              referenceImageIds := mapKeys st.approvedSprites } ∧
      st' = { st with approvedSprites :=
                mapSet st.approvedSprites pose.id rec } := by
  unfold approveSelected at h
  split at h
  · simp at h
  · rename_i hneg
    split at h
    · simp at h
    · rename_i option hopt
      split at h
      · simp at h
      · rename_i img himg
        split at h
        · exact absurd h (by simp)
        · rename_i pose hpose
          obtain ⟨h1, h2⟩ := Prod.mk.injEq _ _ _ _ ▸ (Option.some.inj h)
          obtain h1 := Option.some.inj h1
          exact ⟨pose, option, img, hpose, hneg, hopt, himg, h1.symm,
            by rw [← h2, h1]⟩

/-! ## C1 — approved/skipped disjointness -/

/-- C1 (counterexample): from a freshly constructed one-pose engine, the
operation sequence generate, select, approve, skip leaves pose id A
simultaneously in the approved map and in the skipped set, so
`skipCurrentPose` after `approveSelected` does not preserve disjointness. -/
theorem approved_skipped_disjointness_fails :
    (approveSelected cxE2 77 "model-x").isSome = true ∧
    mapHas cxE3.approvedSprites "A" = true ∧
    mapHas cxE4.approvedSprites "A" = true ∧ "A" ∈ cxE4.skippedPoses := by
  refine ⟨by decide, by decide, by decide, by decide⟩

/-- C1 (amended): the two operations leave the other collection untouched —
`skipCurrentPose` never removes an approval and a non-throwing
`approveSelected` never removes a skip — so a pose approved and then skipped
(or skipped and then approved) ends up in both collections and disjointness
is not preserved. -/
theorem skip_and_approve_keep_other_collection (st : WorkflowEngine) :
    (skipCurrentPose st).approvedSprites = st.approvedSprites ∧
    (∀ now modelId res st',
      approveSelected st now modelId = some (res, st') →
      st'.skippedPoses = st.skippedPoses) := by
  constructor
  · unfold skipCurrentPose
    cases getCurrentPose st <;> rfl
  · intro now modelId res st' h
    obtain ⟨app', rfl⟩ := approveSelected_shape st now modelId res st' h
    rfl

/-- C1 (amended, witness): instantiated on the concrete trace. -/
theorem skip_and_approve_keep_other_collection_witness :
    cxE4.approvedSprites = cxE3.approvedSprites ∧
    cxE3.skippedPoses = cxE2.skippedPoses :=
  ⟨(skip_and_approve_keep_other_collection cxE3).1,
   (skip_and_approve_keep_other_collection cxE2).2 77 "model-x" (some cxRec)
     cxE3 (by decide)⟩

/-! ## C5 — completion condition -/

/-- C5 (counterexample): in the reachable state where the single pose A is
both approved and skipped, `isComplete()` is true although
`approved.size + skipped.size` (= 2) differs from the total pose count
(= 1): completion is not equivalent to equality. -/
theorem isComplete_without_equality :
    isComplete cxE4 = true ∧
    cxE4.approvedSprites.length + cxE4.skippedPoses.length ≠
      getTotalPoseCountFromHierarchy cxE4.hierarchy := by
  refine ⟨by decide, by decide⟩

/-! ## Map lemmas (for C4) -/

/-- Entries with an absent key do not occur. -/
theorem entryCount_eq_zero (m : List (String × ApprovedSpriteData))
    (k : String) (h : mapHas m k = false) :
    m.countP (fun e => e.1 = k) = 0 := by
  rw [List.countP_eq_zero]
  intro e he
  by_contra hc
  have : mapHas m k = true := by
    unfold mapHas
    rw [List.any_eq_true]
    exact ⟨e, he, hc⟩
  rw [h] at this
  exact Bool.false_ne_true this

/-- With unique keys, a present key occurs on exactly one entry. -/
theorem entryCount_eq_one_of_has (m : List (String × ApprovedSpriteData))
    (k : String) (hnd : (mapKeys m).Nodup) (h : mapHas m k = true) :
    m.countP (fun e => e.1 = k) = 1 := by
  induction m with
  | nil => simp [mapHas] at h
  | cons e rest ih =>
      have hnd' : (mapKeys rest).Nodup := (List.nodup_cons.mp hnd).2
      have hnotin : e.1 ∉ mapKeys rest := (List.nodup_cons.mp hnd).1
      by_cases he : e.1 = k
      · have hz : mapHas rest k = false := by
          unfold mapHas
          rw [Bool.eq_false_iff]
          intro hany
          rw [List.any_eq_true] at hany
          obtain ⟨e', he', hk⟩ := hany
          exact hnotin (he ▸ (of_decide_eq_true hk) ▸
            List.mem_map_of_mem (·.1) he')
        rw [List.countP_cons_of_pos _ _ (by simpa using he),
          entryCount_eq_zero rest k hz]
      · have hh : mapHas rest k = true := by
          unfold mapHas at h ⊢
          rw [List.any_eq_true] at h
          obtain ⟨e', he', hk⟩ := h
          rcases List.mem_cons.mp he' with rfl | hmem
          · exact absurd (of_decide_eq_true hk) he
          · rw [List.any_eq_true]; exact ⟨e', hmem, hk⟩
        rw [List.countP_cons_of_neg _ _ (by simpa using he)]
        exact ih hnd' hh

/-- Source `mapSet` on a present key rewrites one entry in place: the key list and
the length are unchanged and the key now occurs exactly once. -/
theorem mapSet_of_has (m : List (String × ApprovedSpriteData)) (k : String)
    (v : ApprovedSpriteData) (h : mapHas m k = true) :
    mapKeys (mapSet m k v) = mapKeys m ∧
    (mapSet m k v).length = m.length := by
  unfold mapSet
  rw [if_pos h]
  constructor
  · unfold mapKeys
    rw [List.map_map]
    apply List.map_congr_left
    intro e _
    by_cases he : e.1 = k <;> simp [he]
  · exact List.length_map _ _

/-- Source `mapSet` on an absent key appends. -/
theorem mapSet_of_not_has (m : List (String × ApprovedSpriteData))
    (k : String) (v : ApprovedSpriteData) (h : mapHas m k = false) :
    mapSet m k v = m ++ [(k, v)] := by
  unfold mapSet
  rw [h]
  rfl

/-- With unique keys, the key written by `mapSet` occurs exactly once
afterwards. -/
theorem entryCount_mapSet (m : List (String × ApprovedSpriteData))
    (k : String) (v : ApprovedSpriteData) (hnd : (mapKeys m).Nodup) :
    (mapSet m k v).countP (fun e => e.1 = k) = 1 := by
  by_cases h : mapHas m k
  · unfold mapSet
    rw [if_pos h, List.countP_map]
    have hcongr : ((fun e : String × ApprovedSpriteData => decide (e.1 = k)) ∘
        (fun e => if e.1 = k then (k, v) else e)) = fun e => decide (e.1 = k) := by
      funext e
      by_cases he : e.1 = k <;> simp [he]
    rw [hcongr]
    exact entryCount_eq_one_of_has m k hnd h
  · rw [mapSet_of_not_has m k v (Bool.eq_false_iff.mpr h), List.countP_append]
    rw [entryCount_eq_zero m k (Bool.eq_false_iff.mpr h)]
    simp

/-! ## C4 — approval bookkeeping -/

/-- C4 (counterexample): re-approving the already-approved pose A succeeds
but leaves `approved.size + skipped.size` unchanged instead of increasing
it by exactly 1. -/
theorem approve_twice_size_unchanged :
    (approveSelected cxE3 78 "model-x").isSome = true ∧
    (match approveSelected cxE3 78 "model-x" with
     | some (_, s) => s.approvedSprites.length + s.skippedPoses.length
     | none => 0) =
      cxE3.approvedSprites.length + cxE3.skippedPoses.length ∧
    cxE3.approvedSprites.length + cxE3.skippedPoses.length = 1 := by
  refine ⟨by decide, by decide, by decide⟩

/-- C4 (amended): when `approveSelected()` succeeds, the approved map holds
exactly one entry keyed by the current pose id; `approved.size +
skipped.size` grows by exactly 1 when the pose was not yet approved, and is
unchanged (the entry is replaced in place, keys preserved) when it was. -/
theorem approveSelected_counts (st : WorkflowEngine) (now : Nat)
    (modelId : String) (rec : ApprovedSpriteData) (st' : WorkflowEngine)
    (hnd : (mapKeys st.approvedSprites).Nodup)
    (h : approveSelected st now modelId = some (some rec, st')) :
    ∃ pose, getCurrentPose st = some pose ∧
      st'.approvedSprites.countP (fun e => e.1 = pose.id) = 1 ∧
      (mapHas st.approvedSprites pose.id = false →
        st'.approvedSprites.length + st'.skippedPoses.length =
          st.approvedSprites.length + st.skippedPoses.length + 1) ∧
      (mapHas st.approvedSprites pose.id = true →
        st'.approvedSprites.length + st'.skippedPoses.length =
          st.approvedSprites.length + st.skippedPoses.length ∧
        mapKeys st'.approvedSprites = mapKeys st.approvedSprites) := by
  obtain ⟨pose, option, img, hpose, _, _, _, _, hst'⟩ :=
    approveSelected_success st now modelId rec st' h
  subst hst'
  refine ⟨pose, hpose, entryCount_mapSet _ _ _ hnd, ?_, ?_⟩
  · intro hno
    show (mapSet st.approvedSprites pose.id rec).length +
        st.skippedPoses.length =
      st.approvedSprites.length + st.skippedPoses.length + 1
    rw [mapSet_of_not_has _ _ _ hno, List.length_append]
    simp
    omega
  · intro hyes
    obtain ⟨hk, hl⟩ := mapSet_of_has st.approvedSprites pose.id rec hyes
    constructor
    · show (mapSet st.approvedSprites pose.id rec).length +
          st.skippedPoses.length =
        st.approvedSprites.length + st.skippedPoses.length
      rw [hl]
    · exact hk

/-- C4 (amended, witness): first approval of pose A on the concrete trace. -/
theorem approveSelected_counts_witness :
    ∃ pose, getCurrentPose cxE2 = some pose ∧
      cxE3.approvedSprites.countP (fun e => e.1 = pose.id) = 1 ∧
      (mapHas cxE2.approvedSprites pose.id = false →
        cxE3.approvedSprites.length + cxE3.skippedPoses.length =
          cxE2.approvedSprites.length + cxE2.skippedPoses.length + 1) ∧
      (mapHas cxE2.approvedSprites pose.id = true →
        cxE3.approvedSprites.length + cxE3.skippedPoses.length =
          cxE2.approvedSprites.length + cxE2.skippedPoses.length ∧
        mapKeys cxE3.approvedSprites = mapKeys cxE2.approvedSprites) :=
  approveSelected_counts cxE2 77 "model-x" cxRec cxE3 (by decide) (by decide)

/-! ## C7 — the reference audit trail -/

/-- C7 (counterexample): approving pose C stores `referenceImageIds =
[A, B]`, the full approved key list, although the Reference Selector
attached only the anchor A for pose C's generation (phase p2 has no earlier
poses), so the audit trail does not equal the attached reference list. -/
theorem referenceImageIds_not_attached_refs :
    (match approveSelected c7State 3 "model-x" with
     | some (some r, _) => r.referenceImageIds
     | _ => []) = ["A", "B"] ∧
    (getApprovedRefsCore c7State).map (fun x => x.2) = some ["A"] ∧
    ¬ (["A", "B"] = ["A"]) := by
  refine ⟨by decide, by decide, by decide⟩

/-- C7 (amended): the `referenceImageIds` written by `approveSelected()` is
the ordered key list of the whole approved map at approval time
(`Array.from(this.approvedSprites.keys())`), not the list of pose ids the
Reference Selector attached to that pose's generation. -/
theorem referenceImageIds_eq_approved_keys (st : WorkflowEngine) (now : Nat)
    (modelId : String) (rec : ApprovedSpriteData) (st' : WorkflowEngine)
    (h : approveSelected st now modelId = some (some rec, st')) :
    rec.referenceImageIds = mapKeys st.approvedSprites := by
  obtain ⟨pose, option, img, _, _, _, _, hrec, _⟩ :=
    approveSelected_success st now modelId rec st' h
  rw [hrec]

/-- C7 (amended, witness). -/
theorem referenceImageIds_eq_approved_keys_witness :
    cxRec.referenceImageIds = mapKeys cxE2.approvedSprites :=
  referenceImageIds_eq_approved_keys cxE2 77 "model-x" cxRec cxE3 (by decide)

/-! ## C6 — generateCurrentPose -/

/-- C6 (counterexample): the stub client returns as many slots as the
engine requests; a fresh engine's `generateCurrentPose` yields 4 candidate
slots — the request count is fixed at 4 and there is no `count` parameter
to honour (a caller asking for 2 candidates still gets 4). -/
theorem generateCurrentPose_count_fixed :
    (generateCurrentPose sampleSuperTable samplePoseTable echoClient cxE0
      cxCfg "").isSome = true ∧
    cxE1.generatedOptions.length = 4 ∧
    ¬ cxE1.generatedOptions.length = 2 := by
  refine ⟨by decide, by decide, by decide⟩

/-- C6 (amended): a successful `generateCurrentPose(characterConfig,
customInstructions)` builds the prompt from the current pose and the
Reference Selector's list, requests exactly 4 candidates from the client,
replaces the candidate list wholesale with the client's results (clearing
the selection), and records the exact prompt string in `lastPrompt`. -/
theorem generateCurrentPose_spec (superT : SuperTable) (poseT : PoseTable)
    (client : SpriteClient) (st : WorkflowEngine) (cfg : CharacterConfig)
    (custom : String) (res : List GeneratedOption) (st' : WorkflowEngine)
    (h : generateCurrentPose superT poseT client st cfg custom =
      some (res, st')) :
    ∃ pose refs base,
      getCurrentPose st = some pose ∧
      getApprovedImagesForReference st = some refs ∧
      buildFullPrompt superT poseT st.gameTypeId st.spriteSize cfg pose
        refs.length = some base ∧
      res = client.generateMultiple (appendInstructions base custom) refs 4
        (computeAspect st.spriteSize.w st.spriteSize.h) ∧
      st' = { st with
              generatedOptions := res
              selectedOptionIndex := -1
              lastPrompt := appendInstructions base custom
              isGenerating := false } := by
  unfold generateCurrentPose at h
  split at h
  · exact absurd h (by simp)
  · rename_i pose hpose
    split at h
    · exact absurd h (by simp)
    · rename_i refs hrefs
      split at h
      · exact absurd h (by simp)
      · rename_i base hbase
        obtain ⟨h1, h2⟩ := Prod.mk.injEq _ _ _ _ ▸ (Option.some.inj h)
        exact ⟨pose, refs, base, hpose, hrefs, hbase, h1.symm,
          by rw [← h2, h1]⟩

/-- C6 (amended, witness): the concrete first generation. -/
theorem generateCurrentPose_spec_witness :
    ∃ pose refs base,
      getCurrentPose cxE0 = some pose ∧
      getApprovedImagesForReference cxE0 = some refs ∧
      buildFullPrompt sampleSuperTable samplePoseTable cxE0.gameTypeId
        cxE0.spriteSize cxCfg pose refs.length = some base ∧
      List.replicate 4 (mkImageOption "gen") =
        echoClient.generateMultiple (appendInstructions base "") refs 4
          (computeAspect cxE0.spriteSize.w cxE0.spriteSize.h) ∧
      cxE1 = { cxE0 with
               generatedOptions := List.replicate 4 (mkImageOption "gen")
               selectedOptionIndex := -1
               lastPrompt := appendInstructions base ""
               isGenerating := false } :=
  generateCurrentPose_spec sampleSuperTable samplePoseTable echoClient cxE0
    cxCfg "" (List.replicate 4 (mkImageOption "gen")) cxE1 (by decide)

/-! ## C10 — navigation frame conditions -/

/-- Source `prevFinish` only moves the cursor and clears candidates. -/
theorem prevFinish_navFrame (st : WorkflowEngine) (ph pi : Nat)
    (r : PrevResult) (st' : WorkflowEngine)
    (h : prevFinish st ph pi = some (r, st')) : navFrame st st' := by
  unfold prevFinish at h
  split at h
  · exact absurd h (by simp)
  · obtain ⟨_, h2⟩ := Prod.mk.injEq _ _ _ _ ▸ (Option.some.inj h)
    rw [← h2]
    exact ⟨rfl, rfl, rfl, rfl, rfl, rfl, rfl⟩

/-- C10: all four navigation operations — `advanceToNextPose`,
`goToPreviousPose`, `jumpToPose` and `advanceToNextUnapprovedPose` — leave
the approved map, the skipped set, the hierarchy and every other
non-navigation field unchanged; only the cursor, candidate list and
selection index may change. -/
theorem navigation_frame (st : WorkflowEngine) :
    (∀ r st', advanceToNextPose st = some (r, st') → navFrame st st') ∧
    (∀ r st', goToPreviousPose st = some (r, st') → navFrame st st') ∧
    (∀ i j r st', jumpToPose st i j = some (r, st') → navFrame st st') ∧
    navFrame st (advanceToNextUnapprovedPose st).2 := by
  refine ⟨?_, ?_, ?_, ?_⟩
  · intro r st' h
    unfold advanceToNextPose at h
    split at h
    · exact absurd h (by simp)
    · obtain ⟨_, h2⟩ := Prod.mk.injEq _ _ _ _ ▸ (Option.some.inj h)
      rw [← h2]
      exact ⟨rfl, rfl, rfl, rfl, rfl, rfl, rfl⟩
    · obtain ⟨_, h2⟩ := Prod.mk.injEq _ _ _ _ ▸ (Option.some.inj h)
      rw [← h2]
      exact ⟨rfl, rfl, rfl, rfl, rfl, rfl, rfl⟩
  · intro r st' h
    unfold goToPreviousPose at h
    split at h
    · split at h
      · exact prevFinish_navFrame st 0 0 r st' h
      · split at h
        · exact absurd h (by simp)
        · exact prevFinish_navFrame st _ _ r st' h
    · exact prevFinish_navFrame st _ _ r st' h
  · intro i j r st' h
    unfold jumpToPose at h
    split at h
    · exact absurd h (by simp)
    · split at h
      · exact absurd h (by simp)
      · split at h
        · exact absurd h (by simp)
        · split at h
          · exact absurd h (by simp)
          · obtain ⟨_, h2⟩ := Prod.mk.injEq _ _ _ _ ▸ (Option.some.inj h)
            rw [← h2]
            exact ⟨rfl, rfl, rfl, rfl, rfl, rfl, rfl⟩
  · unfold advanceToNextUnapprovedPose
    split
    · exact ⟨rfl, rfl, rfl, rfl, rfl, rfl, rfl⟩
    · exact ⟨rfl, rfl, rfl, rfl, rfl, rfl, rfl⟩

/-- C10 (witness): the advance conjunct exercised on a concrete engine. -/
theorem navigation_frame_witness :
    navFrame (initEngine hierTwoPhase "G" { w := 16, h := 24 })
      navAfterAdvance :=
  (navigation_frame (initEngine hierTwoPhase "G" { w := 16, h := 24 })).1
    navAdvanceResult navAfterAdvance (by decide)

/-! ## C2 — advanceToNextPose -/

/-- Source `findFreshIdx` success: the pose sits at the returned index, is fresh,
and every earlier index is unfresh. -/
theorem findFreshIdx_some (fresh : Pose → Bool) (l : List Pose) (i : Nat)
    (p : Pose) (h : findFreshIdx fresh l = some (i, p)) :
    l[i]? = some p ∧ fresh p = true ∧
      ∀ j, j < i → ∀ q, l[j]? = some q → fresh q = false := by
  induction l generalizing i with
  | nil => simp [findFreshIdx] at h
  | cons a rest ih =>
      unfold findFreshIdx at h
      by_cases ha : fresh a
      · rw [if_pos ha] at h
        simp only [Option.some.injEq, Prod.mk.injEq] at h
        obtain ⟨h1, h2⟩ := h
        subst h1
        subst h2
        exact ⟨by simp, ha, fun j hj => absurd hj (by omega)⟩
      · rw [if_neg ha] at h
        cases hrec : findFreshIdx fresh rest with
        | none => rw [hrec] at h; simp at h
        | some r =>
            obtain ⟨i', p'⟩ := r
            rw [hrec] at h
            simp only [Option.map_some', Option.some.injEq,
              Prod.mk.injEq] at h
            obtain ⟨h1, h2⟩ := h
            subst h1
            subst h2
            obtain ⟨hg, hf, hmin⟩ := ih i' hrec
            refine ⟨by simpa using hg, hf, ?_⟩
            intro j hj q hq
            match j with
            | 0 =>
                simp only [List.getElem?_cons_zero, Option.some.injEq] at hq
                subst hq
                exact Bool.eq_false_iff.mpr ha
            | j' + 1 =>
                simp only [List.getElem?_cons_succ] at hq
                exact hmin j' (by omega) q hq

/-- Source `findFreshIdx` failure: every pose of the list is unfresh. -/
theorem findFreshIdx_none (fresh : Pose → Bool) (l : List Pose)
    (h : findFreshIdx fresh l = none) :
    ∀ q ∈ l, fresh q = false := by
  induction l with
  | nil => intro q hq; simp at hq
  | cons a rest ih =>
      unfold findFreshIdx at h
      by_cases ha : fresh a
      · rw [if_pos ha] at h; simp at h
      · rw [if_neg ha] at h
        intro q hq
        rcases List.mem_cons.mp hq with rfl | hmem
        · exact Bool.eq_false_iff.mpr ha
        · cases hrec : findFreshIdx fresh rest with
          | none => exact ih hrec q hmem
          | some r => rw [hrec] at h; simp at h

/-- Source `advancePhases` success: the found position is in phase `phIdx + k` for
some scanned offset `k`, the pose there is fresh and first-fresh in its
phase, and every pose of every phase scanned before it is unfresh. -/
theorem advancePhases_found (fresh : Pose → Bool) (phases : List Phase)
    (phIdx : Nat) (a i : Nat) (p : Pose)
    (h : advancePhases fresh phases phIdx = some (some (a, i, p))) :
    ∃ k phase, a = phIdx + k ∧ phases[k]? = some phase ∧
      phase.poses[i]? = some p ∧ fresh p = true ∧
      (∀ j, j < i → ∀ q, phase.poses[j]? = some q → fresh q = false) ∧
      (∀ m, m < k → ∀ ph', phases[m]? = some ph' →
        ∀ q ∈ ph'.poses, fresh q = false) := by
  induction phases generalizing phIdx with
  | nil => simp [advancePhases] at h
  | cons phase rest ih =>
      unfold advancePhases at h
      by_cases hemp : phase.poses.isEmpty
      · rw [if_pos hemp] at h; simp at h
      · rw [if_neg hemp] at h
        cases hfind : findFreshIdx fresh phase.poses with
        | some r =>
            obtain ⟨i', p'⟩ := r
            rw [hfind] at h
            simp only [Option.some.injEq, Prod.mk.injEq] at h
            obtain ⟨h1, h2, h3⟩ := h
            subst h1
            subst h2
            subst h3
            obtain ⟨hg, hf, hmin⟩ := findFreshIdx_some fresh phase.poses i' p'
              hfind
            exact ⟨0, phase, by omega, by simp, hg, hf, hmin,
              fun m hm => absurd hm (by omega)⟩
        | none =>
            rw [hfind] at h
            obtain ⟨k, phase', h1, h2, h3, h4, h5, h6⟩ := ih (phIdx + 1) h
            refine ⟨k + 1, phase', by omega, by simpa using h2, h3, h4, h5, ?_⟩
            intro m hm ph2 hph2 q hq
            match m with
            | 0 =>
                simp only [List.getElem?_cons_zero, Option.some.injEq] at hph2
                subst hph2
                exact findFreshIdx_none fresh phase.poses hfind q hq
            | m' + 1 =>
                simp only [List.getElem?_cons_succ] at hph2
                exact h6 m' (by omega) ph2 hph2 q hq

/-- Source `advanceLoop` success: the found pose sits strictly after the cursor,
is fresh, and every valid position strictly between the cursor and the
found position holds an unfresh pose. -/
theorem advanceLoop_found (hierarchy : List Phase)
    (app : List (String × ApprovedSpriteData)) (sk : List String)
    (ph pi ph' pi' : Nat) (p : Pose)
    (h : advanceLoop hierarchy app sk ph pi = some (some (ph', pi', p))) :
    poseAt hierarchy ph' pi' = some p ∧ isFresh app sk p = true ∧
    posLt (ph, pi) (ph', pi') ∧
    ∀ a b q, posLt (ph, pi) (a, b) → posLt (a, b) (ph', pi') →
      poseAt hierarchy a b = some q → isFresh app sk q = false := by
  unfold advanceLoop at h
  split at h
  · simp at h
  · rename_i phase hph
    split at h
    · rename_i i q0 hfind
      simp only [Option.some.injEq, Prod.mk.injEq] at h
      obtain ⟨h1, h2, h3⟩ := h
      subst h1
      subst h2
      subst h3
      obtain ⟨hg, hf, hmin⟩ := findFreshIdx_some _ _ _ _ hfind
      rw [List.getElem?_drop] at hg
      refine ⟨?_, hf, Or.inr ⟨rfl, by omega⟩, ?_⟩
      · unfold poseAt
        rw [hph]
        exact hg
      · intro a b q hab1 hab2 hq
        simp only [posLt] at hab1 hab2
        have hab : a = ph ∧ pi < b ∧ b < pi + 1 + i := by omega
        obtain ⟨rfl, hb1, hb2⟩ := hab
        unfold poseAt at hq
        rw [hph] at hq
        simp only [Option.some_bind] at hq
        have hdrop : (phase.poses.drop (pi + 1))[b - (pi + 1)]? = some q := by
          rw [List.getElem?_drop]
          have hb3 : pi + 1 + (b - (pi + 1)) = b := by omega
          rw [hb3]
          exact hq
        exact hmin (b - (pi + 1)) (by omega) q hdrop
    · rename_i hfind
      obtain ⟨k, phase2, h1, h2, h3, h4, h5, h6⟩ :=
        advancePhases_found _ _ _ _ _ _ h
      rw [List.getElem?_drop] at h2
      have hinPhase : ∀ b q, pi < b → phase.poses[b]? = some q →
          isFresh app sk q = false := by
        intro b q hb hq
        have hdrop : (phase.poses.drop (pi + 1))[b - (pi + 1)]? = some q := by
          rw [List.getElem?_drop]
          have hb3 : pi + 1 + (b - (pi + 1)) = b := by omega
          rw [hb3]
          exact hq
        exact findFreshIdx_none _ _ hfind q (List.getElem?_mem hdrop)
      refine ⟨?_, h4, Or.inl (by omega), ?_⟩
      · unfold poseAt
        rw [h1, h2]
        simpa using h3
      · intro a b q hab1 hab2 hq
        simp only [posLt] at hab1 hab2
        unfold poseAt at hq
        by_cases hcase : a = ph
        · subst hcase
          rw [hph] at hq
          simp only [Option.some_bind] at hq
          exact hinPhase b q (by omega) hq
        · have ha1 : ph < a := by omega
          cases hpa : hierarchy[a]? with
          | none => rw [hpa] at hq; simp at hq
          | some ph2 =>
              rw [hpa] at hq
              simp only [Option.some_bind] at hq
              by_cases hcase2 : a = ph'
              · subst hcase2
                have hb : b < pi' := by omega
                have hpp : ph2 = phase2 := by
                  rw [h1] at hpa
                  rw [hpa] at h2
                  exact Option.some.inj h2
                subst hpp
                exact h5 b hb q hq
              · have ha2 : a < ph' := by omega
                have hm : (hierarchy.drop (ph + 1))[a - (ph + 1)]? =
                    some ph2 := by
                  rw [List.getElem?_drop]
                  have ha3 : ph + 1 + (a - (ph + 1)) = a := by omega
                  rw [ha3]
                  exact hpa
                exact h6 (a - (ph + 1)) (by omega) ph2 hm q
                  (List.getElem?_mem hq)

/-- C2: when `advanceToNextPose()` returns a pose, that pose is neither
approved nor skipped, it is the first such pose strictly after the cursor
in hierarchy order (forward scan, no wrap), the cursor is set to it and the
candidate list and selection are cleared; when it returns done the state is
unchanged, so repeated calls keep returning done. -/
theorem advanceToNextPose_spec (st : WorkflowEngine) (r : AdvanceResult)
    (st' : WorkflowEngine) (h : advanceToNextPose st = some (r, st')) :
    (r.done = false →
      ∃ pose, r.pose = some pose ∧
        poseAt st.hierarchy st'.currentPhaseIndex st'.currentPoseIndex =
          some pose ∧
        mapHas st.approvedSprites pose.id = false ∧
        pose.id ∉ st.skippedPoses ∧
        posLt (st.currentPhaseIndex, st.currentPoseIndex)
          (st'.currentPhaseIndex, st'.currentPoseIndex) ∧
        (∀ a b q, posLt (st.currentPhaseIndex, st.currentPoseIndex) (a, b) →
          posLt (a, b) (st'.currentPhaseIndex, st'.currentPoseIndex) →
          poseAt st.hierarchy a b = some q →
          isFresh st.approvedSprites st.skippedPoses q = false) ∧
        st'.generatedOptions = [] ∧ st'.selectedOptionIndex = -1) ∧
    (r.done = true → st' = st ∧ advanceToNextPose st' = some (r, st')) := by
  unfold advanceToNextPose at h
  split at h
  · exact absurd h (by simp)
  · rename_i heq0
    simp only [Option.some.injEq, Prod.mk.injEq] at h
    obtain ⟨h1, h2⟩ := h
    subst h2
    constructor
    · intro hdone
      rw [← h1] at hdone
      simp at hdone
    · intro _
      refine ⟨rfl, ?_⟩
      unfold advanceToNextPose
      rw [heq0, h1]
  · rename_i ph pi pose heq
    simp only [Option.some.injEq, Prod.mk.injEq] at h
    obtain ⟨h1, h2⟩ := h
    subst h2
    constructor
    · intro _
      obtain ⟨hg, hf, hlt, hmin⟩ :=
        advanceLoop_found st.hierarchy st.approvedSprites st.skippedPoses
          st.currentPhaseIndex st.currentPoseIndex ph pi pose heq
      have hfresh := of_decide_eq_true hf
      refine ⟨pose, ?_, hg, ?_, hfresh.2, hlt, hmin, rfl, rfl⟩
      · rw [← h1]
      · have := hfresh.1
        rwa [Bool.not_eq_true] at this
    · intro hdone
      rw [← h1] at hdone
      simp at hdone

/-- C2 (witness): the concrete advance skipping the approved pose B. -/
theorem advanceToNextPose_spec_witness :
    (c2Result.done = false →
      ∃ pose, c2Result.pose = some pose ∧
        poseAt c2Engine.hierarchy c2After.currentPhaseIndex
          c2After.currentPoseIndex = some pose ∧
        mapHas c2Engine.approvedSprites pose.id = false ∧
        pose.id ∉ c2Engine.skippedPoses ∧
        posLt (c2Engine.currentPhaseIndex, c2Engine.currentPoseIndex)
          (c2After.currentPhaseIndex, c2After.currentPoseIndex) ∧
        (∀ a b q,
          posLt (c2Engine.currentPhaseIndex, c2Engine.currentPoseIndex)
            (a, b) →
          posLt (a, b) (c2After.currentPhaseIndex,
            c2After.currentPoseIndex) →
          poseAt c2Engine.hierarchy a b = some q →
          isFresh c2Engine.approvedSprites c2Engine.skippedPoses q =
            false) ∧
        c2After.generatedOptions = [] ∧
        c2After.selectedOptionIndex = -1) ∧
    (c2Result.done = true →
      c2After = c2Engine ∧
      advanceToNextPose c2After = some (c2Result, c2After)) :=
  advanceToNextPose_spec c2Engine c2Result c2After (by decide)

/-! ## C3 — the reference selector -/

/-- Source `addRef` skips an id already in the `added` set. -/
theorem addRef_skip_mem (app : List (String × ApprovedSpriteData))
    (cur : Option String) (acc : List ImageData × List String) (pid : String)
    (h1 : pid ∈ acc.2) : addRef app cur acc pid = acc := by
  unfold addRef
  rw [if_pos h1]

/-- Source `addRef` skips the current pose id. -/
theorem addRef_skip_cur (app : List (String × ApprovedSpriteData))
    (cur : Option String) (acc : List ImageData × List String) (pid : String)
    (h1 : pid ∉ acc.2) (h2 : cur = some pid) : addRef app cur acc pid = acc := by
  unfold addRef
  rw [if_neg h1, if_pos h2]

/-- Source `addRef` skips an unapproved id. -/
theorem addRef_skip_none (app : List (String × ApprovedSpriteData))
    (cur : Option String) (acc : List ImageData × List String) (pid : String)
    (h1 : pid ∉ acc.2) (h2 : ¬ cur = some pid)
    (hget : mapGet app pid = none) : addRef app cur acc pid = acc := by
  unfold addRef
  rw [if_neg h1, if_neg h2, hget]

/-- Source `addRef` pushes an approved, non-current, unseen id. -/
theorem addRef_push (app : List (String × ApprovedSpriteData))
    (cur : Option String) (acc : List ImageData × List String) (pid : String)
    (s : ApprovedSpriteData) (h1 : pid ∉ acc.2) (h2 : ¬ cur = some pid)
    (hget : mapGet app pid = some s) :
    addRef app cur acc pid =
      (acc.1 ++ [{ data := s.imageData, mimeType := s.mimeType }],
       acc.2 ++ [pid]) := by
  unfold addRef
  rw [if_neg h1, if_neg h2, hget]

/-- Unfolding lemma: head id already seen. -/
theorem refFilterIds_cons_mem (app : List (String × ApprovedSpriteData))
    (cur : Option String) (pid : String) (rest seen : List String)
    (h1 : pid ∈ seen) :
    refFilterIds app cur (pid :: rest) seen = refFilterIds app cur rest seen := by
  rw [refFilterIds]
  rw [if_pos h1]

/-- Unfolding lemma: head id is the current pose. -/
theorem refFilterIds_cons_cur (app : List (String × ApprovedSpriteData))
    (cur : Option String) (pid : String) (rest seen : List String)
    (h1 : pid ∉ seen) (h2 : cur = some pid) :
    refFilterIds app cur (pid :: rest) seen = refFilterIds app cur rest seen := by
  rw [refFilterIds]
  rw [if_neg h1, if_pos h2]

/-- Unfolding lemma: head id not approved. -/
theorem refFilterIds_cons_none (app : List (String × ApprovedSpriteData))
    (cur : Option String) (pid : String) (rest seen : List String)
    (h1 : pid ∉ seen) (h2 : ¬ cur = some pid) (hget : mapGet app pid = none) :
    refFilterIds app cur (pid :: rest) seen = refFilterIds app cur rest seen := by
  rw [refFilterIds]
  rw [if_neg h1, if_neg h2, hget]

/-- Unfolding lemma: head id is kept. -/
theorem refFilterIds_cons_push (app : List (String × ApprovedSpriteData))
    (cur : Option String) (pid : String) (rest seen : List String)
    (s : ApprovedSpriteData) (h1 : pid ∉ seen) (h2 : ¬ cur = some pid)
    (hget : mapGet app pid = some s) :
    refFilterIds app cur (pid :: rest) seen =
      pid :: refFilterIds app cur rest (seen ++ [pid]) := by
  rw [refFilterIds]
  rw [if_neg h1, if_neg h2, hget]

/-- A fold of `addRef` appends exactly the kept ids and their images. -/
theorem foldl_addRef (app : List (String × ApprovedSpriteData))
    (cur : Option String) (ids : List String) (imgs : List ImageData)
    (seen : List String) :
    ids.foldl (addRef app cur) (imgs, seen) =
      (imgs ++ imagesOf app (refFilterIds app cur ids seen),
       seen ++ refFilterIds app cur ids seen) := by
  induction ids generalizing imgs seen with
  | nil => simp [refFilterIds, imagesOf]
  | cons pid rest ih =>
      rw [List.foldl_cons]
      by_cases h1 : pid ∈ seen
      · rw [addRef_skip_mem app cur (imgs, seen) pid h1,
          refFilterIds_cons_mem app cur pid rest seen h1, ih]
      · by_cases h2 : cur = some pid
        · rw [addRef_skip_cur app cur (imgs, seen) pid h1 h2,
            refFilterIds_cons_cur app cur pid rest seen h1 h2, ih]
        · cases hget : mapGet app pid with
          | none =>
              rw [addRef_skip_none app cur (imgs, seen) pid h1 h2 hget,
                refFilterIds_cons_none app cur pid rest seen h1 h2 hget, ih]
          | some s =>
              rw [addRef_push app cur (imgs, seen) pid s h1 h2 hget,
                refFilterIds_cons_push app cur pid rest seen s h1 h2 hget, ih]
              have himg : imagesOf app (pid :: refFilterIds app cur rest
                  (seen ++ [pid])) =
                  { data := s.imageData, mimeType := s.mimeType } ::
                    imagesOf app (refFilterIds app cur rest (seen ++ [pid])) := by
                unfold imagesOf
                rw [List.filterMap_cons, hget]
                rfl
              rw [himg]
              simp

/-- With distinct incoming ids, threading the `added` set degenerates to a
plain filter against the initial set. -/
theorem refFilterIds_eq_filter (app : List (String × ApprovedSpriteData))
    (cur : Option String) (ids : List String) (seen : List String)
    (hnd : ids.Nodup) :
    refFilterIds app cur ids seen = ids.filter (refKeep app cur seen) := by
  induction ids generalizing seen with
  | nil => simp [refFilterIds]
  | cons pid rest ih =>
      have hhead : pid ∉ rest := (List.nodup_cons.mp hnd).1
      have hrest : rest.Nodup := (List.nodup_cons.mp hnd).2
      by_cases h1 : pid ∈ seen
      · rw [refFilterIds_cons_mem app cur pid rest seen h1, ih seen hrest,
          List.filter_cons_of_neg]
        simp [refKeep, h1]
      · by_cases h2 : cur = some pid
        · rw [refFilterIds_cons_cur app cur pid rest seen h1 h2, ih seen hrest,
            List.filter_cons_of_neg]
          simp [refKeep, h2]
        · cases hget : mapGet app pid with
          | none =>
              rw [refFilterIds_cons_none app cur pid rest seen h1 h2 hget,
                ih seen hrest, List.filter_cons_of_neg]
              simp [refKeep, hget]
          | some s =>
              rw [refFilterIds_cons_push app cur pid rest seen s h1 h2 hget,
                ih (seen ++ [pid]) hrest, List.filter_cons_of_pos]
              · congr 1
                apply List.filter_congr
                intro x hx
                have hxp : ¬ x = pid := fun he => hhead (he ▸ hx)
                simp [refKeep, hxp]
              · simp [refKeep, h1, h2, hget]

/-- The anchor step of `getApprovedRefsCore` produces exactly the spec's
anchor part, provided the anchor pose id (if any) is a non-empty string —
the source's `if (anchorId)` truthiness guard is then equivalent to the
spec's "if approved" condition. -/
theorem anchorAcc_spec (st : WorkflowEngine) (curId : String)
    (hne : ∀ a, anchorPoseId st.hierarchy = some a → ¬ a = "") :
    (match (st.hierarchy[0]?).bind (fun ph => ph.poses[0]?) with
     | some anchor =>
         if anchor.id = "" then (([] : List ImageData), ([] : List String))
         else addRef st.approvedSprites (some curId) ([], []) anchor.id
     | none => (([] : List ImageData), ([] : List String))) =
    (imagesOf st.approvedSprites (specAnchorIds st curId),
     specAnchorIds st curId) := by
  cases hanchor : (st.hierarchy[0]?).bind (fun ph => ph.poses[0]?) with
  | none => simp [specAnchorIds, anchorPoseId, hanchor, imagesOf]
  | some anchor =>
      show (if anchor.id = "" then (([] : List ImageData), ([] : List String))
        else addRef st.approvedSprites (some curId) ([], []) anchor.id) =
        (imagesOf st.approvedSprites (specAnchorIds st curId),
         specAnchorIds st curId)
      have hA : anchorPoseId st.hierarchy = some anchor.id := by
        unfold anchorPoseId
        rw [hanchor]
        rfl
      rw [if_neg (hne anchor.id hA)]
      by_cases hcur : anchor.id = curId
      · rw [addRef_skip_cur _ _ _ _ (by simp) (by rw [hcur])]
        simp [specAnchorIds, hA, hcur, imagesOf]
      · cases hget : mapGet st.approvedSprites anchor.id with
        | none =>
            rw [addRef_skip_none _ _ _ _ (by simp)
              (fun he => hcur (Option.some.inj he).symm) hget]
            simp [specAnchorIds, hA, hget, imagesOf]
        | some s =>
            rw [addRef_push _ _ _ _ s (by simp)
              (fun he => hcur (Option.some.inj he).symm) hget]
            simp [specAnchorIds, hA, hcur, hget, imagesOf]

/-- Source `specAnchorIds` with no anchor pose. -/
theorem specAnchorIds_of_none (st : WorkflowEngine) (curId : String)
    (h : anchorPoseId st.hierarchy = none) : specAnchorIds st curId = [] := by
  unfold specAnchorIds
  rw [h]

/-- Source `specAnchorIds` with an anchor pose id. -/
theorem specAnchorIds_of_some (st : WorkflowEngine) (curId : String)
    (a : String) (h : anchorPoseId st.hierarchy = some a) :
    specAnchorIds st curId =
      if (mapGet st.approvedSprites a).isSome = true ∧ ¬ a = curId then [a]
      else [] := by
  unfold specAnchorIds
  rw [h]

/-- The anchor pose id is one of the hierarchy's pose ids. -/
theorem anchor_mem_hierarchyPoseIds (hierarchy : List Phase) (a : String)
    (h : anchorPoseId hierarchy = some a) : a ∈ hierarchyPoseIds hierarchy := by
  unfold anchorPoseId at h
  rw [Option.map_eq_some'] at h
  obtain ⟨p0, hp0, hid⟩ := h
  rw [Option.bind_eq_some] at hp0
  obtain ⟨ph0, hph0, hp2⟩ := hp0
  unfold hierarchyPoseIds
  rw [List.mem_flatMap]
  exact ⟨ph0, List.getElem?_mem hph0,
    hid ▸ List.mem_map_of_mem (fun p => p.id) (List.getElem?_mem hp2)⟩

/-- C3: with a valid cursor and globally distinct, non-empty pose ids, the
Reference Selector returns exactly the spec's list — the anchor's approved
sprite first (if approved and not current), then the approved sprites of
the poses preceding the current pose within the current phase, in pose
order, de-duplicated with the anchor winning — and its id list never
contains the current pose or a duplicate.  (Non-emptiness makes the
source's `if (anchorId)` truthiness guard coincide with the spec's "if
approved"; an empty-string pose id would be skipped by the code.) -/
theorem getApprovedRefs_spec (st : WorkflowEngine) (cur : Pose)
    (hcur : getCurrentPose st = some cur)
    (hnd : (hierarchyPoseIds st.hierarchy).Nodup)
    (hids : ∀ pid ∈ hierarchyPoseIds st.hierarchy, ¬ pid = "") :
    getApprovedRefsCore st =
      some (imagesOf st.approvedSprites (specReferenceIds st cur.id),
            specReferenceIds st cur.id) ∧
    (specReferenceIds st cur.id).Nodup ∧
    cur.id ∉ specReferenceIds st cur.id := by
  have hanne : ∀ a, anchorPoseId st.hierarchy = some a → ¬ a = "" :=
    fun a ha => hids a (anchor_mem_hierarchyPoseIds st.hierarchy a ha)
  have hbind := hcur
  unfold getCurrentPose at hbind
  rw [Option.bind_eq_some] at hbind
  obtain ⟨phase, hphase, hposeIdx⟩ := hbind
  obtain ⟨hlt, -⟩ := List.getElem?_eq_some_iff.mp hposeIdx
  have hmemPhase : phase ∈ st.hierarchy := by
    have := hphase
    unfold getCurrentPhase at this
    exact List.getElem?_mem this
  have hsub1 : List.Sublist
      ((phase.poses.take st.currentPoseIndex).map (fun p => p.id))
      (phase.poses.map (fun p => p.id)) :=
    (List.take_sublist _ _).map _
  have hsub2 : List.Sublist (phase.poses.map (fun p => p.id))
      (hierarchyPoseIds st.hierarchy) := by
    unfold hierarchyPoseIds
    rw [List.flatMap_def]
    exact List.sublist_flatten_of_mem
      (List.mem_map_of_mem (fun ph => ph.poses.map (fun p => p.id)) hmemPhase)
  have hndIds :
      ((phase.poses.take st.currentPoseIndex).map (fun p => p.id)).Nodup :=
    (hsub1.trans hsub2).nodup hnd
  have hAnd : (specAnchorIds st cur.id).Nodup := by
    cases hA0 : anchorPoseId st.hierarchy with
    | none => rw [specAnchorIds_of_none st cur.id hA0]; exact List.nodup_nil
    | some a =>
        rw [specAnchorIds_of_some st cur.id a hA0]
        by_cases hg : (mapGet st.approvedSprites a).isSome = true ∧
            ¬ a = cur.id
        · rw [if_pos hg]; simp
        · rw [if_neg hg]; exact List.nodup_nil
  have hcurA : cur.id ∉ specAnchorIds st cur.id := by
    cases hA0 : anchorPoseId st.hierarchy with
    | none => rw [specAnchorIds_of_none st cur.id hA0]; simp
    | some a =>
        rw [specAnchorIds_of_some st cur.id a hA0]
        by_cases hg : (mapGet st.approvedSprites a).isSome = true ∧
            ¬ a = cur.id
        · rw [if_pos hg]
          simp only [List.mem_singleton]
          exact fun he => hg.2 (he ▸ rfl)
        · rw [if_neg hg]; simp
  have hspec : specReferenceIds st cur.id =
      specAnchorIds st cur.id ++
        ((phase.poses.take st.currentPoseIndex).map (fun p => p.id)).filter
          (fun pid => (mapGet st.approvedSprites pid).isSome ∧
            ¬ pid = cur.id ∧ pid ∉ specAnchorIds st cur.id) := by
    unfold specReferenceIds
    rw [hphase]
  have hfilters :
      refFilterIds st.approvedSprites (some cur.id)
        ((phase.poses.take st.currentPoseIndex).map (fun p => p.id))
        (specAnchorIds st cur.id) =
      ((phase.poses.take st.currentPoseIndex).map (fun p => p.id)).filter
        (fun pid => (mapGet st.approvedSprites pid).isSome ∧
          ¬ pid = cur.id ∧ pid ∉ specAnchorIds st cur.id) := by
    rw [refFilterIds_eq_filter st.approvedSprites (some cur.id) _
      (specAnchorIds st cur.id) hndIds]
    apply List.filter_congr
    intro x hx
    unfold refKeep
    by_cases h2 : x = cur.id
    · subst h2; simp
    · have h2s : ¬ cur.id = x := fun he => h2 he.symm
      by_cases h1 : x ∈ specAnchorIds st cur.id <;>
        by_cases h3 : (mapGet st.approvedSprites x).isSome <;>
          simp [h1, h2, h2s, h3]
  refine ⟨?_, ?_, ?_⟩
  · unfold getApprovedRefsCore
    rw [hphase]
    simp only [hcur, Option.map_some']
    rw [if_pos (Nat.le_of_lt hlt)]
    rw [anchorAcc_spec st cur.id hanne, foldl_addRef, hfilters, hspec]
    unfold imagesOf
    rw [List.filterMap_append]
  · rw [hspec]
    refine List.Nodup.append hAnd (List.Nodup.filter _ hndIds) ?_
    intro a haA haF
    have := (List.mem_filter.mp haF).2
    have hprop := of_decide_eq_true this
    exact hprop.2.2 haA
  · rw [hspec]
    intro hmem
    rcases List.mem_append.mp hmem with hA | hF
    · exact hcurA hA
    · have := (List.mem_filter.mp hF).2
      have hprop := of_decide_eq_true this
      exact hprop.2.1 rfl

/-- C3 (witness): for pose C only the anchor A is selected. -/
theorem getApprovedRefs_spec_witness :
    getApprovedRefsCore c3Engine =
      some (imagesOf c3Engine.approvedSprites
              (specReferenceIds c3Engine (mkPose "C").id),
            specReferenceIds c3Engine (mkPose "C").id) ∧
    (specReferenceIds c3Engine (mkPose "C").id).Nodup ∧
    (mkPose "C").id ∉ specReferenceIds c3Engine (mkPose "C").id :=
  getApprovedRefs_spec c3Engine (mkPose "C") (by decide) (by decide)
    (by decide)

/-! ## C8 — buildFullPrompt layout -/

/-- Source `String.intercalate` on a three-element list. -/
theorem intercalate3 (s a b c : String) :
    String.intercalate s [a, b, c] = a ++ s ++ b ++ s ++ c := by
  simp only [String.intercalate, String.intercalate.go]

/-- Source `String.intercalate` on a four-element list. -/
theorem intercalate4 (s a b c d : String) :
    String.intercalate s [a, b, c, d] = a ++ s ++ b ++ s ++ c ++ s ++ d := by
  simp only [String.intercalate, String.intercalate.go]

/-- C8: whenever the game type has a registered template and the pose a
registered fragment, `buildFullPrompt` is exactly the blank-line-separated
concatenation super-prompt, character-prompt, reference-context (present
precisely when `referenceCount > 0`), pose fragment; in particular the
output contains, in order, the super-prompt text, the character name and
the fragment as substrings. -/
theorem buildFullPrompt_layout (superT : SuperTable) (poseT : PoseTable)
    (gt : String) (sz : SpriteSize) (cfg : CharacterConfig) (pose : Pose)
    (count : Nat) (tmpl : Nat → Nat → String) (frag : String)
    (hsup : superT gt = some tmpl) (hfrag : poseT pose.id = some frag) :
    buildFullPrompt superT poseT gt sz cfg pose count =
      some (tmpl sz.w sz.h ++ "\n\n" ++ buildCharacterPrompt cfg ++ "\n\n" ++
        (if count = 0 then "" else buildReferenceContext count ++ "\n\n") ++
        frag) ∧
    (∃ mid : String,
      buildFullPrompt superT poseT gt sz cfg pose count =
        some (tmpl sz.w sz.h ++ "\n\n" ++ "The character is " ++ cfg.name ++
          mid ++ frag)) ∧
    (buildReferenceContext count = "" ↔ count = 0) := by
  have hne : ∀ n : Nat, ¬ n = 0 → ¬ buildReferenceContext n = "" := by
    intro n hn h
    unfold buildReferenceContext at h
    rw [if_neg hn] at h
    have hlen := congrArg String.length h
    rw [String.length_append, String.length_append] at hlen
    have h15 : ("I am providing " : String).length = 15 := by decide
    rw [h15] at hlen
    have h0 : ("" : String).length = 0 := by decide
    rw [h0] at hlen
    omega
  have hmain : buildFullPrompt superT poseT gt sz cfg pose count =
      some (tmpl sz.w sz.h ++ "\n\n" ++ buildCharacterPrompt cfg ++ "\n\n" ++
        (if count = 0 then "" else buildReferenceContext count ++ "\n\n") ++
        frag) := by
    unfold buildFullPrompt buildSuperPrompt buildPosePrompt
    rw [hsup, hfrag]
    simp only [Option.map_some', Option.some.injEq]
    by_cases hc : count = 0
    · have hemp : buildReferenceContext count = "" := by
        unfold buildReferenceContext
        rw [if_pos hc]
      rw [if_pos hemp, if_pos hc]
      show String.intercalate "\n\n" [tmpl sz.w sz.h, buildCharacterPrompt cfg,
        frag] = _
      rw [intercalate3]
      simp only [String.append_assoc, String.empty_append]
    · have hne2 := hne count hc
      rw [if_neg hne2, if_neg hc]
      show String.intercalate "\n\n" [tmpl sz.w sz.h, buildCharacterPrompt cfg,
        buildReferenceContext count, frag] = _
      rw [intercalate4]
      simp only [String.append_assoc]
  refine ⟨hmain, ?_, ?_⟩
  · refine ⟨": " ++ cfg.description ++ "."
      ++ (match cfg.equipment with
          | some e => " " ++ e ++ "."
          | none => "")
      ++ (match cfg.colorNotes with
          | some c => " " ++ c ++ "."
          | none => "")
      ++ "\n\n" ++
        (if count = 0 then "" else buildReferenceContext count ++ "\n\n"),
      ?_⟩
    rw [hmain]
    unfold buildCharacterPrompt
    congr 1
    simp only [String.append_assoc]
  · constructor
    · intro h
      by_contra hc
      exact hne count hc h
    · intro h
      unfold buildReferenceContext
      rw [if_pos h]

/-- C8 (witness): the sample tables at game type G and pose A. -/
theorem buildFullPrompt_layout_witness :
    (buildFullPrompt sampleSuperTable samplePoseTable "G" { w := 16, h := 24 }
        cxCfg (mkPose "A") 2 =
      some ((fun w h => "SPRITE " ++ toString w ++ "x" ++ toString h) 16 24 ++
        "\n\n" ++ buildCharacterPrompt cxCfg ++ "\n\n" ++
        (if 2 = 0 then "" else buildReferenceContext 2 ++ "\n\n") ++
        "FRAG-A")) ∧
    (∃ mid : String,
      buildFullPrompt sampleSuperTable samplePoseTable "G" { w := 16, h := 24 }
          cxCfg (mkPose "A") 2 =
        some ((fun w h => "SPRITE " ++ toString w ++ "x" ++ toString h) 16 24 ++
          "\n\n" ++ "The character is " ++ cxCfg.name ++ mid ++ "FRAG-A")) ∧
    (buildReferenceContext 2 = "" ↔ 2 = 0) :=
  buildFullPrompt_layout sampleSuperTable samplePoseTable "G"
    { w := 16, h := 24 } cxCfg (mkPose "A") 2
    (fun w h => "SPRITE " ++ toString w ++ "x" ++ toString h) "FRAG-A"
    (by rfl) (by decide)

/-! ## C9 — generateMultiple slot bookkeeping -/

/-- C9: `generateMultiple` returns exactly `count` slots; slot `i` holds
request `i`'s settled outcome (a rejection becomes an `{ error }` entry in
its own slot, never a thrown exception); and when every fulfilled request
carries an image and no error, a batch with `k` failing requests yields
exactly `k` error entries and `count - k` image entries, regardless of
completion order (indexing is by request, not completion). -/
theorem generateMultiple_slots (outcomes : Nat → Except String GenerateResult)
    (count : Nat) :
    (generateMultipleClient outcomes count).length = count ∧
    (∀ i, i < count →
      (generateMultipleClient outcomes count)[i]? =
        some (settleOutcome (outcomes i))) ∧
    ((∀ i, i < count → ∀ v, outcomes i = Except.ok v →
        v.image.isSome = true ∧ v.error = none) →
      (generateMultipleClient outcomes count).countP
          (fun r => r.error.isSome) =
        (List.range count).countP (outcomeFails outcomes) ∧
      (generateMultipleClient outcomes count).countP
          (fun r => r.image.isSome) =
        count - (List.range count).countP (outcomeFails outcomes)) := by
  refine ⟨by simp [generateMultipleClient], ?_, ?_⟩
  · intro i hi
    unfold generateMultipleClient
    rw [List.getElem?_map, List.getElem?_range hi]
    rfl
  · intro hok
    unfold generateMultipleClient
    rw [List.countP_map, List.countP_map]
    have herr : ∀ i ∈ List.range count,
        ((fun r : GenerateResult => r.error.isSome) ∘
          (fun i => settleOutcome (outcomes i))) i = true ↔
        outcomeFails outcomes i = true := by
      intro i hi
      have hi' : i < count := List.mem_range.mp hi
      unfold outcomeFails
      cases ho : outcomes i with
      | error m => simp [settleOutcome, ho]
      | ok v =>
          have := (hok i hi' v ho).2
          simp [settleOutcome, ho, this]
    have himg : ∀ i ∈ List.range count,
        ((fun r : GenerateResult => r.image.isSome) ∘
          (fun i => settleOutcome (outcomes i))) i = true ↔
        ¬ outcomeFails outcomes i = true := by
      intro i hi
      have hi' : i < count := List.mem_range.mp hi
      unfold outcomeFails
      cases ho : outcomes i with
      | error m => simp [settleOutcome, ho]
      | ok v =>
          have := (hok i hi' v ho).1
          simp [settleOutcome, ho, this]
    constructor
    · exact List.countP_congr herr
    · have hc2 : List.countP ((fun r : GenerateResult => r.image.isSome) ∘
          (fun i => settleOutcome (outcomes i))) (List.range count) =
          List.countP (fun a => ¬ outcomeFails outcomes a)
            (List.range count) := by
        apply List.countP_congr
        intro i hi
        rw [himg i hi]
        simp
      rw [hc2]
      have hsplit :=
        @List.length_eq_countP_add_countP Nat (outcomeFails outcomes)
          (List.range count)
      rw [List.length_range] at hsplit
      omega

/-- C9 (witness): 2 of 4 requests fail, giving exactly 2 error entries and
2 image entries. -/
theorem generateMultiple_slots_witness :
    (generateMultipleClient cxOutcomes 4).length = 4 ∧
    (generateMultipleClient cxOutcomes 4).countP
        (fun r => r.error.isSome) = 2 ∧
    (generateMultipleClient cxOutcomes 4).countP
        (fun r => r.image.isSome) = 2 := by
  have h := generateMultiple_slots cxOutcomes 4
  have hok : ∀ i, i < 4 → ∀ v, cxOutcomes i = Except.ok v →
      v.image.isSome = true ∧ v.error = none := by
    intro i hi v hv
    unfold cxOutcomes at hv
    by_cases he : i % 2 = 0
    · rw [if_pos he] at hv
      have hveq := Except.ok.inj hv
      rw [← hveq]
      exact ⟨rfl, rfl⟩
    · rw [if_neg he] at hv
      exact absurd hv (by simp)
  obtain ⟨herr, himg⟩ := h.2.2 hok
  have hk : (List.range 4).countP (outcomeFails cxOutcomes) = 2 := by decide
  rw [hk] at herr himg
  exact ⟨h.1, herr, himg⟩

/-- C5 (amended): `isComplete()` returns true exactly when
`approved.size + skipped.size` is greater than or equal to the hierarchy's
total pose count (the source comparison is `completed >= total`). -/
theorem isComplete_iff_ge (st : WorkflowEngine) :
    isComplete st = true ↔
      st.approvedSprites.length + st.skippedPoses.length ≥
        getTotalPoseCountFromHierarchy st.hierarchy := by
  simp [isComplete, getProgress]
